import Mathlib

/-
  Verification development for the well-log ingestion/analytics backend.

  Numeric values are modelled as exact rationals (`ℚ`) where the source uses
  Python floats, except for the Pearson correlation whose square root forces
  real numbers.  Python `round(x, k)` is modelled as rounding `x * 10^k` to the
  nearest integer (ties are immaterial to every property proved here).
  Python dictionaries are modelled as association lists looked up by key.
-/

namespace WellLogApp

/-! ## Shared helpers (model of `_mean`, Python string ops, Python slicing) -/

def meanL {α : Type} [DivisionRing α] (values : List α) : Option α :=
  if values.isEmpty then none else some (values.sum / (values.length : α))

def upperL (s : String) : List Char :=
  s.toList.map Char.toUpper

def leadsList : List Char → List Char → Bool
  | [], _ => true
  | _ :: _, [] => false
  | n :: ns, h :: hs => n == h && leadsList ns hs

def occursIn (needle : List Char) : List Char → Bool
  | [] => needle.isEmpty
  | h :: hs => leadsList needle (h :: hs) || occursIn needle hs

def isUpperAlnum (ch : Char) : Bool :=
  (decide ('A' ≤ ch) && decide (ch ≤ 'Z')) || (decide ('0' ≤ ch) && decide (ch ≤ '9'))

/-- Model of `_normalize_token`: uppercase, keep only ASCII letters and digits. -/
def normalize_token (s : String) : List Char :=
  (upperL s).filter isUpperAlnum

/-- Model of `_extract_mentioned_curves` from `routers/chat.py`. -/
def extract_mentioned_curves (message : String) (available_curve_names : List String) :
    List String :=
  if message = "" then []
  else
    let raw_message := upperL message
    let normalized_message := normalize_token message
    let sorted_candidates :=
      available_curve_names.insertionSort fun a b => b.length ≤ a.length
    sorted_candidates.foldl
      (fun acc curve =>
        let curve_upper := upperL curve
        let curve_normalized := normalize_token curve
        if (occursIn curve_upper raw_message ||
            (!curve_normalized.isEmpty && occursIn curve_normalized normalized_message)) &&
            !(acc.contains curve)
        then acc ++ [curve] else acc)
      []

/-! ## Depth-range normalization (chat path, `_normalize_depth_range`) -/

def clampd (start_depth stop_depth x : ℚ) : ℚ :=
  max start_depth (min x stop_depth)

/-- Model of `_normalize_depth_range` from `routers/chat.py`. -/
def normalize_depth_range (request_min request_max : Option ℚ)
    (start_depth stop_depth : ℚ) : ℚ × ℚ :=
  let depth_min := clampd start_depth stop_depth (request_min.getD start_depth)
  let depth_max := clampd start_depth stop_depth (request_max.getD stop_depth)
  if depth_max ≤ depth_min then (start_depth, stop_depth) else (depth_min, depth_max)

/-! ## Row subsampling (`rows[::stride]` with `stride = max(1, n // cap)`) -/

def everyNth : List α → ℕ → List α
  | [], _ => []
  | a :: rest, k => a :: everyNth (List.drop (k - 1) rest) k
termination_by l _ => l.length
decreasing_by
  simp only [List.length_drop, List.length_cons]
  omega

def stride_for (n cap : ℕ) : ℕ :=
  max 1 (n / cap)

/-- Model of the `stride`-based subsampling shared by `_format_query_analytics`
(cap 3500) and `_curve_pairs` (cap 4000). -/
def subsample (rows : List α) (cap : ℕ) : List α :=
  everyNth rows (stride_for rows.length cap)

/-! ## Rounding and data rows -/

def roundQ (k : ℕ) (x : ℚ) : ℚ :=
  ((round (x * (10 : ℚ) ^ k) : ℤ) : ℚ) / (10 : ℚ) ^ k

/-- A data row as served by `get_well_data`: an association list with a
`depth` key and one key per requested curve; `none` is the stored null. -/
abbrev Row := List (String × Option ℚ)

def row_get (row : Row) (key : String) : Option ℚ :=
  (row.lookup key).join

/-! ## Percentile (`_percentile` in `ai_service.py`) -/

def int_trunc (x : ℚ) : ℤ :=
  if 0 ≤ x then ⌊x⌋ else -⌊-x⌋

def pyGet (l : List ℚ) (i : ℤ) : Option ℚ :=
  if 0 ≤ i then l.get? i.toNat
  else if (-i).toNat ≤ l.length then l.get? (l.length - (-i).toNat) else none

/-- Model of `_percentile`: linear interpolation over the sorted values; the
Python `int(pos)` truncation and `sorted_vals[...]` indexing are modelled by
`int_trunc` and `pyGet` (an out-of-range index, which would raise in Python,
yields `none`). -/
def percentile (values : List ℚ) (q : ℚ) : Option ℚ :=
  if values = [] then none
  else
    let sorted_vals := values.insertionSort fun a b => a ≤ b
    let n := sorted_vals.length
    if n = 1 then sorted_vals.head?
    else
      let pos := q * ((n : ℚ) - 1)
      let lo := int_trunc pos
      let hi := min (lo + 1) ((n : ℤ) - 1)
      let frac := pos - (lo : ℚ)
      match pyGet sorted_vals lo, pyGet sorted_vals hi with
      | some vlo, some vhi => some (vlo + frac * (vhi - vlo))
      | _, _ => none

/-! ## Trend classification (`_trend_label` in `ai_service.py`) -/

def trend_label (values : List ℚ) : String :=
  if values.length < 12 then "insufficient points"
  else
    let window := max 3 (values.length / 5)
    match meanL (values.take window), meanL (values.drop (values.length - window)) with
    | some head_mean, some tail_mean =>
      let delta := tail_mean - head_mean
      let scale := max (max |head_mean| |tail_mean|) (1 / 1000000000)
      let rel := delta / scale
      if 8 / 100 ≤ rel then "increasing with depth"
      else if rel ≤ -(8 / 100) then "decreasing with depth"
      else "mostly stable"
    | _, _ => "insufficient points"

/-! ## Statistics engine (`get_well_data` / `get_well_statistics`) -/

structure CurveStats where
  min : Option ℚ
  max : Option ℚ
  mean : Option ℚ
  count : ℕ
  non_null_count : ℕ
deriving DecidableEq

/-- Model of `get_well_data`: filter the stored rows by the inclusive depth
window, order by depth, and emit one association-list row per sample with a
`depth` key plus one key per requested curve. -/
def get_well_data (dbRows : List (ℚ × Row)) (curves : List String)
    (depth_min depth_max : Option ℚ) : List Row :=
  let f1 := match depth_min with
    | none => dbRows
    | some m => dbRows.filter fun r => decide (m ≤ r.1)
  let f2 := match depth_max with
    | none => f1
    | some m => f1.filter fun r => decide (r.1 ≤ m)
  let sorted := f2.insertionSort fun r s => r.1 ≤ s.1
  sorted.map fun r => (("depth"), some r.1) :: (curves.map fun c => (c, row_get r.2 c))

/-- The per-curve statistics loop of `get_well_statistics`. -/
def stats_of (curves : List String) (data : List Row) : List (String × CurveStats) :=
  curves.map fun curve =>
    match data.filterMap fun p => row_get p curve with
    | [] => (curve, ⟨none, none, none, data.length, 0⟩)
    | v :: vs =>
      (curve,
        ⟨some (roundQ 4 (vs.foldl min v)), some (roundQ 4 (vs.foldl max v)),
         some (roundQ 4 ((v :: vs).sum / ((v :: vs).length : ℚ))),
         data.length, (v :: vs).length⟩)

/-- Model of `get_well_statistics` from `data_service.py`. -/
def get_well_statistics (dbRows : List (ℚ × Row)) (curves : List String)
    (depth_min depth_max : Option ℚ) : List (String × CurveStats) :=
  stats_of curves (get_well_data dbRows curves depth_min depth_max)

/-! ## LAS parser row processing (`parse_las_file` in `las_parser.py`) -/

/-- A raw matrix cell before the `df.replace` step: either NaN or a number. -/
inductive RawVal where
  | nan : RawVal
  | num : ℚ → RawVal
deriving DecidableEq

/-- The `df.replace(NaN -> None, null_val -> None)` step, per cell. -/
def replaceCell (null_val : ℚ) : RawVal → Option ℚ
  | RawVal.nan => none
  | RawVal.num q => if q = null_val then none else some q

/-- One raw record of the data matrix: the index/depth cell plus the named
non-index cells. -/
structure RawRecord where
  depth : RawVal
  cells : List (String × RawVal)
deriving DecidableEq

/-- The `row.get(mn)` read of a replaced cell (a missing key reads as null). -/
def cell_value (null_val : ℚ) (cells : List (String × RawVal)) (mn : String) : Option ℚ :=
  match cells.lookup mn with
  | none => none
  | some v => replaceCell null_val v

structure DataRow where
  depth : ℚ
  values : List (String × Option ℚ)
deriving DecidableEq

/-- The per-record body of the parser data loop: drop the record when the
depth cell is null, otherwise round the depth and every present value to four
decimals and key the values by the full mnemonic list. -/
def process_record (null_val : ℚ) (curve_mnemonics : List String) (r : RawRecord) :
    Option DataRow :=
  match replaceCell null_val r.depth with
  | none => none
  | some d =>
    some ⟨roundQ 4 d,
      curve_mnemonics.map fun mn => (mn, (cell_value null_val r.cells mn).map (roundQ 4))⟩

/-- Model of the data-row extraction loop of `parse_las_file`. -/
def parse_data_rows (null_val : ℚ) (curve_mnemonics : List String)
    (records : List RawRecord) : List DataRow :=
  records.filterMap (process_record null_val curve_mnemonics)

/-! ## Pearson correlation (`_pearson` in `ai_service.py`)

The source takes a real square root, so this one model lives over `ℝ`. -/

noncomputable def pearson_core (a b : List ℝ) (mean_a mean_b : ℝ) : Option ℝ :=
  if Real.sqrt (((a.map fun x => (x - mean_a) ^ 2).sum) *
      ((b.map fun y => (y - mean_b) ^ 2).sum)) = 0 then none
  else
    some ((((a.zip b).map fun p => (p.1 - mean_a) * (p.2 - mean_b)).sum) /
      Real.sqrt (((a.map fun x => (x - mean_a) ^ 2).sum) *
        ((b.map fun y => (y - mean_b) ^ 2).sum)))

/-- Model of `_pearson`: truncate both sequences to the shorter length,
require at least three pairs, and divide the centered cross sum by the
square root of the product of the centered square sums. -/
noncomputable def pearson (values_a values_b : List ℝ) : Option ℝ :=
  let n := min values_a.length values_b.length
  if n < 3 then none
  else
    match meanL (values_a.take n), meanL (values_b.take n) with
    | some mean_a, some mean_b =>
      pearson_core (values_a.take n) (values_b.take n) mean_a mean_b
    | _, _ => none

/-! ## Deterministic interpreter (`_fallback_interpretation` in `ai_service.py`) -/

structure GeochemicalMetrics where
  wetness_index : String
  balance_ratio : String
  character_ratio : String
deriving DecidableEq

structure GasShow where
  depth_top : ℚ
  depth_bottom : ℚ
  analysis : String
  fluid_probability : String
  geological_context : String
deriving DecidableEq

structure RiskProfile where
  seal_risk : String
  saturation_risk : String
  technical_summary : String
deriving DecidableEq

structure Zone where
  depth_top : ℚ
  depth_bottom : ℚ
  characterization : String
  key_markers : String
deriving DecidableEq

structure Interpretation where
  summary : String
  geochemical_metrics : GeochemicalMetrics
  gas_shows : List GasShow
  fluid_type : String
  fluid_evidence : String
  risk_profile : RiskProfile
  zones : List Zone
  recommendations : List String
deriving DecidableEq

def eps : ℚ := 1 / 1000000000

def stats_non_null (stats : List (String × CurveStats)) (c : String) : ℕ :=
  ((stats.lookup c).map CurveStats.non_null_count).getD 0

/-- The `stat_mean` helper (`_safe_float(...) or 0.0`). -/
def stat_mean (stats : List (String × CurveStats)) (c : String) : ℚ :=
  ((stats.lookup c).bind CurveStats.mean).getD 0

/-- The fixed insufficient-data interpretation returned when no curve has a
valid sample in the window. -/
def insufficient_interpretation (well_name : String) (depth_min depth_max : ℚ) :
    Interpretation where
  summary := "No valid numeric samples were found in " ++ toString depth_min ++ "-" ++
    toString depth_max ++ " for well " ++ well_name ++ "."
  geochemical_metrics :=
    ⟨"n/a, insufficient data", "n/a, insufficient data", "n/a, insufficient data"⟩
  gas_shows := []
  fluid_type := "insufficient data"
  fluid_evidence := "No curves with valid points were available in the selected interval."
  risk_profile :=
    ⟨"High", "High", "Interpretation confidence is low due to missing valid curve values."⟩
  zones := []
  recommendations :=
    ["Verify data quality and null-value handling for the selected interval.",
     "Expand depth interval or include additional valid curves before interpretation."]

/-- Model of `_curve_pairs`: stride-subsample the rows, then keep the
(depth, value) pairs where both are present. -/
def curve_pairs (sample_data : List Row) (curve : String) (max_rows : ℕ) :
    List (ℚ × ℚ) :=
  match sample_data with
  | [] => []
  | _ =>
    (subsample sample_data max_rows).filterMap fun row =>
      match row_get row ("depth"), row_get row curve with
      | some d, some v => some (d, v)
      | _, _ => none

/-- Curves counted as hydrocarbon candidates: mnemonic contains HC or GAS
(case-insensitively) or starts with C. -/
def hydro_filter (c : String) : Bool :=
  occursIn (upperL ("HC")) (upperL c) || occursIn (upperL ("GAS")) (upperL c) ||
    (match upperL c with | ch :: _ => ch == 'C' | [] => false)

def light_curve (c : String) : Bool :=
  occursIn (upperL ("HC1")) (upperL c) || occursIn (upperL ("HC2")) (upperL c) ||
    occursIn (upperL ("HC3")) (upperL c)

def heavy_curve (c : String) : Bool :=
  occursIn (upperL ("HC4")) (upperL c) || occursIn (upperL ("HC5")) (upperL c) ||
    occursIn (upperL ("HC6")) (upperL c) || occursIn (upperL ("HC7")) (upperL c)

/-- Python `sorted(cs, key=stat_mean, reverse=True)`. -/
def sort_desc_by_mean (stats : List (String × CurveStats)) (cs : List String) :
    List String :=
  cs.insertionSort fun a b => stat_mean stats b ≤ stat_mean stats a

/-- The ranked hydrocarbon-candidate list of `_fallback_interpretation`. -/
def ranked_of (stats : List (String × CurveStats)) (valid_curves : List String) :
    List String :=
  sort_desc_by_mean stats
    (if (valid_curves.filter hydro_filter).isEmpty
     then (sort_desc_by_mean stats valid_curves).take 4
     else valid_curves.filter hydro_filter)

def fluid_type_of (wetness : ℚ) : String :=
  if wetness ≤ 17 / 100 then "dry gas system"
  else if wetness ≤ 40 / 100 then "gas-prone hydrocarbon system"
  else if wetness ≤ 65 / 100 then "mixed gas and oil system"
  else "oil-prone or condensate-rich system"

/-- The `high_interval` helper: requires at least 8 pairs, takes the depths at
or above the 0.9 percentile, and reports the rounded interval and threshold. -/
def high_interval (sample_data : List Row) (curve : String) : Option (ℚ × ℚ × ℚ) :=
  let pairs := curve_pairs sample_data curve 4000
  if pairs.length < 8 then none
  else
    match percentile (pairs.map Prod.snd) (9 / 10) with
    | none => none
    | some threshold =>
      match (pairs.filter fun p => decide (threshold ≤ p.2)).map Prod.fst with
      | [] => none
      | d :: ds => some (roundQ 1 (ds.foldl min d), roundQ 1 (ds.foldl max d), threshold)

/-- The `zone_intensity` helper: mean over rows in the band of the per-row
average of the top hydrocarbon candidates. -/
def zone_intensity (sample_data : List Row) (hydro : List String)
    (start_d end_d : ℚ) : ℚ :=
  let values := sample_data.filterMap fun row =>
    match row_get row ("depth") with
    | none => none
    | some depth =>
      if depth < start_d ∨ end_d < depth then none
      else
        match hydro.filterMap fun c => row_get row c with
        | [] => none
        | v :: vs => some ((v :: vs).sum / ((v :: vs).length : ℚ))
  (meanL values).getD 0

/-- The main (some-valid-data) branch of `_fallback_interpretation`, given the
ranked hydrocarbon candidates with `primary_curve` at the head. -/
def main_interpretation (well_name : String) (depth_min depth_max : ℚ)
    (stats : List (String × CurveStats)) (sample_data : List Row)
    (primary_curve : String) (rest : List String) : Interpretation :=
  let ranked := primary_curve :: rest
  let secondary_curve := if rest.isEmpty then primary_curve else rest.headI
  let total_light := ((ranked.filter light_curve).map (stat_mean stats)).sum
  let total_heavy := ((ranked.filter heavy_curve).map (stat_mean stats)).sum
  let wetness :=
    if 0 < total_light + total_heavy then total_heavy / (total_light + total_heavy) else 0
  let balance :=
    if (stats.lookup ("TOTAL_GAS")).isSome then
      stat_mean stats ("TOTAL_GAS") / max (stat_mean stats primary_curve) eps
    else stat_mean stats primary_curve
  let character := if 0 < total_light then total_heavy / max total_light eps else total_heavy
  let fluid_type := fluid_type_of wetness
  let gas_shows :=
    ([(primary_curve, "High"), (secondary_curve, "Med")] : List (String × String)).filterMap
      fun pc =>
        match high_interval sample_data pc.1 with
        | none => none
        | some (top_d, bot_d, threshold) =>
          some { depth_top := top_d, depth_bottom := bot_d,
                 analysis := pc.1 ++ " exceeds its high-response threshold (" ++
                   toString (roundQ 3 threshold) ++ ") indicating concentrated hydrocarbon response.",
                 fluid_probability := pc.2,
                 geological_context := "High-response band driven by " ++ pc.1 ++
                   " in this interval." }
  let third := (depth_max - depth_min) / 3
  let zone_bounds : List (ℚ × ℚ) :=
    [(depth_min, depth_min + third), (depth_min + third, depth_min + 2 * third),
     (depth_min + 2 * third, depth_max)]
  let hydro3 := ranked.take 3
  let overall_intensity :=
    (meanL (zone_bounds.map fun zb => zone_intensity sample_data hydro3 zb.1 zb.2)).getD 0
  let zones := zone_bounds.map fun zb =>
    let intensity := zone_intensity sample_data hydro3 zb.1 zb.2
    let relative := if 0 < overall_intensity then intensity / max overall_intensity eps else 0
    let label :=
      if 12 / 10 ≤ relative then "gas-enriched zone"
      else if 85 / 100 ≤ relative then "mixed fluid zone"
      else "lower-intensity hydrocarbon zone"
    ({ depth_top := roundQ 1 zb.1, depth_bottom := roundQ 1 zb.2,
       characterization := label,
       key_markers := "Relative hydrocarbon intensity=" ++ toString (roundQ 2 relative) ++
         " using " ++ String.intercalate (", ") hydro3 } : Zone)
  let p_min := ((stats.lookup primary_curve).bind CurveStats.min).getD 0
  let p_max := ((stats.lookup primary_curve).bind CurveStats.max).getD 0
  let p_mean := max (((stats.lookup primary_curve).bind CurveStats.mean).getD 0) eps
  let variability := (p_max - p_min) / p_mean
  let deep_intensity := zone_intensity sample_data hydro3 (depth_min + 2 * third) depth_max
  let shallow_intensity := zone_intensity sample_data hydro3 depth_min (depth_min + third)
  let seal_risk :=
    if 22 / 10 < variability then "High" else if 12 / 10 < variability then "Med" else "Low"
  let saturation_risk :=
    if deep_intensity < 55 / 100 * max shallow_intensity eps then "High"
    else if deep_intensity < 8 / 10 * max shallow_intensity eps then "Med" else "Low"
  { summary := "In " ++ toString (roundQ 1 depth_min) ++ "-" ++ toString (roundQ 1 depth_max) ++
      ", strongest responses are driven by " ++ primary_curve ++ " (mean " ++
      toString (roundQ 3 (stat_mean stats primary_curve)) ++ ") and " ++ secondary_curve ++
      " (mean " ++ toString (roundQ 3 (stat_mean stats secondary_curve)) ++
      "), with inferred " ++ fluid_type ++ ".",
    geochemical_metrics :=
      { wetness_index := toString (roundQ 4 wetness) ++ " (derived)",
        balance_ratio := toString (roundQ 4 balance) ++ " (derived)",
        character_ratio := toString (roundQ 4 character) ++ " (derived)" },
    gas_shows := gas_shows,
    fluid_type := fluid_type,
    fluid_evidence := "Primary evidence: " ++ primary_curve ++ " and " ++ secondary_curve ++
      " high-response intervals, wetness index " ++ toString (roundQ 3 wetness) ++
      ", and variability ratio " ++ toString (roundQ 3 variability) ++ ".",
    risk_profile :=
      { seal_risk := seal_risk, saturation_risk := saturation_risk,
        technical_summary := "Seal risk " ++ seal_risk ++ " and saturation risk " ++
          saturation_risk ++ " derived from " ++ primary_curve ++
          " variability and deep-to-shallow intensity contrast." },
    zones := zones,
    recommendations :=
      ["Validate " ++ primary_curve ++ " and " ++ secondary_curve ++
         " with complementary petrophysical logs.",
       "Run focused sampling/coring across highest-response intervals to confirm fluid typing.",
       "Cross-check drilling parameters versus hydrocarbon intensity transitions between zones."] }

/-- Model of `_fallback_interpretation`; a `none` result models an uncaught
exception (shown below never to happen). -/
def fallback_interpretation (well_name : String) (curves : List String)
    (depth_min depth_max : ℚ) (stats : List (String × CurveStats))
    (sample_data : List Row) : Option Interpretation :=
  if (curves.filter fun c => decide (0 < stats_non_null stats c)).isEmpty then
    some (insufficient_interpretation well_name depth_min depth_max)
  else
    match ranked_of stats (curves.filter fun c => decide (0 < stats_non_null stats c)) with
    | [] => none
    | primary_curve :: rest =>
      some (main_interpretation well_name depth_min depth_max stats sample_data
        primary_curve rest)

/-! ## Interpretation route (`interpret` in `routers/interpretation.py`) -/

inductive InterpretOutcome where
  | notFound : InterpretOutcome
  | invalidCurves : List String → InterpretOutcome
  | invalidRange : InterpretOutcome
  | success : List (String × CurveStats) → List Row → InterpretOutcome
deriving DecidableEq

/-- Model of the `interpret` route body: well lookup, curve validation, depth
range validation, and only then the statistics and data queries. -/
def interpret_route (well : Option String) (available : List String)
    (curves : List String) (depth_min depth_max : ℚ) (dbRows : List (ℚ × Row)) :
    InterpretOutcome :=
  match well with
  | none => InterpretOutcome.notFound
  | some _ =>
    let invalid := curves.filter fun c => !(available.contains c)
    if !invalid.isEmpty then InterpretOutcome.invalidCurves invalid
    else if depth_max ≤ depth_min then InterpretOutcome.invalidRange
    else
      InterpretOutcome.success
        (get_well_statistics dbRows curves (some depth_min) (some depth_max))
        (get_well_data dbRows curves (some depth_min) (some depth_max))

/-! ## Helper lemmas -/

theorem lookup_map_pairs (f : String → Option ℚ) :
    ∀ (mns : List String) (m : String), m ∈ mns →
    (mns.map fun mn => (mn, f mn)).lookup m = some (f m) := by
  intro mns
  induction mns with
  | nil => intro m hm; cases hm
  | cons a as ih =>
    intro m hm
    by_cases h : m = a
    · subst h
      simp [List.lookup]
    · have hba : (m == a) = false := beq_eq_false_iff_ne.mpr h
      have h' : m ∈ as := by
        rcases List.mem_cons.mp hm with h0 | h0
        · exact absurd h0 h
        · exact h0
      simp only [List.map_cons, List.lookup, hba]
      exact ih m h'

theorem meanL_const {α : Type} [Field α] [CharZero α] (l : List α) (c : α)
    (h : ∀ x ∈ l, x = c) (hne : l ≠ []) : meanL l = some c := by
  have hemp : l.isEmpty = false := by
    cases l
    · exact absurd rfl hne
    · rfl
  have hlen0 : l.length ≠ 0 := by
    cases l
    · exact absurd rfl hne
    · simp
  have hlen : (l.length : α) ≠ 0 := Nat.cast_ne_zero.mpr hlen0
  unfold meanL
  rw [hemp]
  simp only [Bool.false_eq_true, if_false]
  rw [List.sum_eq_card_nsmul l c h, nsmul_eq_mul]
  refine congrArg some ?_
  rw [div_eq_iff hlen, mul_comm]

/-! ## C3 -/

/-- C3 counterexample: the strictly increasing 20-point sequence
`1000 + i/1000` has relative head-to-tail change below 0.08, so trend
classification labels it `mostly stable`, not `increasing with depth` —
refuting the universally quantified part of the claim. -/
theorem C3_counterexample :
    List.Chain' (fun a b : ℚ => a < b)
      [1000, 1000 + 1/1000, 1000 + 2/1000, 1000 + 3/1000, 1000 + 4/1000, 1000 + 5/1000,
       1000 + 6/1000, 1000 + 7/1000, 1000 + 8/1000, 1000 + 9/1000, 1000 + 10/1000,
       1000 + 11/1000, 1000 + 12/1000, 1000 + 13/1000, 1000 + 14/1000, 1000 + 15/1000,
       1000 + 16/1000, 1000 + 17/1000, 1000 + 18/1000, 1000 + 19/1000] ∧
    ([1000, 1000 + 1/1000, 1000 + 2/1000, 1000 + 3/1000, 1000 + 4/1000, 1000 + 5/1000,
      1000 + 6/1000, 1000 + 7/1000, 1000 + 8/1000, 1000 + 9/1000, 1000 + 10/1000,
      1000 + 11/1000, 1000 + 12/1000, 1000 + 13/1000, 1000 + 14/1000, 1000 + 15/1000,
      1000 + 16/1000, 1000 + 17/1000, 1000 + 18/1000, 1000 + 19/1000] : List ℚ).length = 20 ∧
    trend_label
      [1000, 1000 + 1/1000, 1000 + 2/1000, 1000 + 3/1000, 1000 + 4/1000, 1000 + 5/1000,
       1000 + 6/1000, 1000 + 7/1000, 1000 + 8/1000, 1000 + 9/1000, 1000 + 10/1000,
       1000 + 11/1000, 1000 + 12/1000, 1000 + 13/1000, 1000 + 14/1000, 1000 + 15/1000,
       1000 + 16/1000, 1000 + 17/1000, 1000 + 18/1000, 1000 + 19/1000] = "mostly stable" := by
  refine ⟨by norm_num [List.chain'_cons], by norm_num, ?_⟩
  norm_num [trend_label, meanL, List.take, List.drop, abs_eq_max_neg, max_def]

/-- C3 (amended): trend classification returns `insufficient points` below 12
values and `mostly stable` on every constant sequence of at least 12 values;
a strictly increasing 20-point sequence is labelled `increasing with depth`
only when its relative head-to-tail change reaches the 0.08 threshold, as on
the sequence 1..20. -/
theorem C3_trend_label :
    (∀ values : List ℚ, values.length < 12 → trend_label values = "insufficient points") ∧
    (∀ (values : List ℚ) (c : ℚ), 12 ≤ values.length → (∀ x ∈ values, x = c) →
      trend_label values = "mostly stable") ∧
    trend_label [1, 2, 3, 4, 5, 6, 7, 8, 9, 10, 11, 12, 13, 14, 15, 16, 17, 18, 19, 20] =
      "increasing with depth" := by
  refine ⟨?_, ?_, ?_⟩
  · intro values hlt
    unfold trend_label
    rw [if_pos hlt]
  · intro values c hlen hconst
    unfold trend_label
    rw [if_neg (by omega : ¬ values.length < 12)]
    have hw3 : 3 ≤ max 3 (values.length / 5) := le_max_left _ _
    have hwle : max 3 (values.length / 5) ≤ values.length :=
      max_le (by omega) (Nat.div_le_self _ _)
    have htlen : (values.take (max 3 (values.length / 5))).length = max 3 (values.length / 5) := by
      rw [List.length_take]
      omega
    have hdlen : (values.drop (values.length - max 3 (values.length / 5))).length =
        max 3 (values.length / 5) := by
      rw [List.length_drop]
      omega
    have htake : meanL (values.take (max 3 (values.length / 5))) = some c := by
      apply meanL_const
      · intro x hx
        exact hconst x (List.take_subset _ _ hx)
      · intro hnil
        rw [hnil] at htlen
        simp at htlen
        omega
    have hdrop : meanL (values.drop (values.length - max 3 (values.length / 5))) = some c := by
      apply meanL_const
      · intro x hx
        exact hconst x (List.drop_subset _ _ hx)
      · intro hnil
        rw [hnil] at hdlen
        simp at hdlen
        omega
    simp only [htake, hdrop]
    rw [sub_self, zero_div]
    rw [if_neg (by norm_num), if_neg (by norm_num)]
  · norm_num [trend_label, meanL, List.take, List.drop, abs_eq_max_neg, max_def]

/-- C3 witness. -/
theorem C3_witness :
    trend_label [(5 : ℚ), 6, 7, 8, 9] = "insufficient points" ∧
    trend_label [(7 : ℚ), 7, 7, 7, 7, 7, 7, 7, 7, 7, 7, 7] = "mostly stable" :=
  ⟨C3_trend_label.1 [(5 : ℚ), 6, 7, 8, 9] (by norm_num),
   C3_trend_label.2.1 [(7 : ℚ), 7, 7, 7, 7, 7, 7, 7, 7, 7, 7, 7] 7 (by norm_num)
     (by intro x hx; simp at hx; exact hx)⟩

/-! ## C6 -/

theorem sort_eq_of_perm {l l' : List ℚ} (h : l.Perm l') :
    l.insertionSort (fun a b => a ≤ b) = l'.insertionSort (fun a b => a ≤ b) :=
  List.eq_of_perm_of_sorted
    ((List.perm_insertionSort _ l).trans (h.trans (List.perm_insertionSort _ l').symm))
    (List.sorted_insertionSort _ l) (List.sorted_insertionSort _ l')

/-- C6 (confirmed): the percentile computation depends only on the sorted
values, so it is invariant under permutation of its input; it is `none` on the
empty list; and on a one-element list it returns that element for every q. -/
theorem C6_percentile_props :
    (∀ (values values' : List ℚ) (q : ℚ), values.Perm values' →
      percentile values' q = percentile values q) ∧
    (∀ q : ℚ, percentile [] q = none) ∧
    (∀ v q : ℚ, percentile [v] q = some v) := by
  refine ⟨?_, fun q => rfl, fun v q => ?_⟩
  · intro values values' q h
    by_cases hv : values = []
    · subst hv
      rw [h.symm.eq_nil]
    · have hv' : values' ≠ [] := fun e => hv (e ▸ h).eq_nil
      unfold percentile
      rw [if_neg hv, if_neg hv', sort_eq_of_perm h]
  · simp [percentile, List.insertionSort, List.orderedInsert]

/-- C6 witness. -/
theorem C6_witness :
    percentile [1, 2, 3] (1 / 2) = percentile [2, 1, 3] (1 / 2) :=
  C6_percentile_props.1 [2, 1, 3] [1, 2, 3] (1 / 2) (List.Perm.swap 1 2 [3])

/-! ## C7 -/

theorem meanL_of_ne_nil {α : Type} [DivisionRing α] (l : List α) (h : l ≠ []) :
    meanL l = some (l.sum / (l.length : α)) := by
  unfold meanL
  rw [if_neg (by simp [h])]

theorem pearson_core_comm (a b : List ℝ) (mean_a mean_b : ℝ) :
    pearson_core b a mean_b mean_a = pearson_core a b mean_a mean_b := by
  unfold pearson_core
  have key : ∀ l : List (ℝ × ℝ),
      ((l.map Prod.swap).map fun p => (p.1 - mean_b) * (p.2 - mean_a)).sum =
      (l.map fun p => (p.1 - mean_a) * (p.2 - mean_b)).sum := by
    intro l
    induction l with
    | nil => rfl
    | cons x xs ih =>
      simp only [List.map_cons, List.sum_cons, ih, Prod.fst_swap, Prod.snd_swap]
      ring
  have hnum := key (a.zip b)
  rw [List.zip_swap] at hnum
  rw [hnum, mul_comm ((b.map fun x => (x - mean_b) ^ 2).sum)
    ((a.map fun y => (y - mean_a) ^ 2).sum)]

theorem take_min_ne_nil_left {A B : List ℝ} (h3 : 3 ≤ min A.length B.length) :
    A.take (min A.length B.length) ≠ [] := by
  intro e
  have hl := congrArg List.length e
  rw [List.length_take] at hl
  simp only [List.length_nil] at hl
  omega

theorem take_min_ne_nil_right {A B : List ℝ} (h3 : 3 ≤ min A.length B.length) :
    B.take (min A.length B.length) ≠ [] := by
  intro e
  have hl := congrArg List.length e
  rw [List.length_take] at hl
  simp only [List.length_nil] at hl
  omega

theorem pearson_comm (A B : List ℝ) : pearson A B = pearson B A := by
  simp only [pearson]
  rw [Nat.min_comm B.length A.length]
  by_cases h3 : min A.length B.length < 3
  · rw [if_pos h3, if_pos h3]
  · rw [if_neg h3, if_neg h3]
    push_neg at h3
    rw [meanL_of_ne_nil _ (take_min_ne_nil_left h3),
      meanL_of_ne_nil _ (take_min_ne_nil_right h3)]
    exact (pearson_core_comm _ _ _ _).symm

theorem pearson_const_left (A B : List ℝ) (c : ℝ)
    (h : ∀ x ∈ A.take (min A.length B.length), x = c) : pearson A B = none := by
  simp only [pearson]
  by_cases h3 : min A.length B.length < 3
  · rw [if_pos h3]
  · rw [if_neg h3]
    push_neg at h3
    have hAne := take_min_ne_nil_left (A := A) (B := B) h3
    have hBne := take_min_ne_nil_right (A := A) (B := B) h3
    rw [meanL_of_ne_nil _ hAne, meanL_of_ne_nil _ hBne]
    show pearson_core _ _ _ _ = none
    have hmean : (A.take (min A.length B.length)).sum /
        ((A.take (min A.length B.length)).length : ℝ) = c := by
      have h1 := meanL_const _ c h hAne
      have h2 := meanL_of_ne_nil (A.take (min A.length B.length)) hAne
      rw [h1] at h2
      exact (Option.some.inj h2).symm
    have hden : ((A.take (min A.length B.length)).map fun x =>
        (x - (A.take (min A.length B.length)).sum /
          ((A.take (min A.length B.length)).length : ℝ)) ^ 2).sum = 0 := by
      apply List.sum_eq_zero
      intro y hy
      rcases List.mem_map.mp hy with ⟨x, hx, rfl⟩
      rw [h x hx, hmean, sub_self]
      ring
    unfold pearson_core
    rw [if_pos (by rw [hden, zero_mul, Real.sqrt_zero])]

/-- C7 (confirmed): Pearson correlation is symmetric, is undefined when fewer
than three paired points remain after truncation, and is undefined when either
truncated sequence is constant (zero variance). -/
theorem C7_pearson_props :
    (∀ A B : List ℝ, pearson A B = pearson B A) ∧
    (∀ A B : List ℝ, min A.length B.length < 3 → pearson A B = none) ∧
    (∀ (A B : List ℝ) (c : ℝ),
      ((∀ x ∈ A.take (min A.length B.length), x = c) ∨
       (∀ y ∈ B.take (min A.length B.length), y = c)) → pearson A B = none) := by
  refine ⟨pearson_comm, ?_, ?_⟩
  · intro A B h
    simp only [pearson]
    rw [if_pos h]
  · intro A B c hc
    rcases hc with hc | hc
    · exact pearson_const_left A B c hc
    · rw [pearson_comm]
      exact pearson_const_left B A c (by simpa [Nat.min_comm] using hc)

/-- C7 witness. -/
theorem C7_witness :
    pearson [(1 : ℝ), 2] [3, 4] = none ∧ pearson [(5 : ℝ), 5, 5] [1, 2, 4] = none :=
  ⟨C7_pearson_props.2.1 [(1 : ℝ), 2] [3, 4] (by norm_num),
   C7_pearson_props.2.2 [(5 : ℝ), 5, 5] [1, 2, 4] 5
     (Or.inl (by
       intro x hx
       have hx' := List.take_subset _ _ hx
       simp at hx'
       exact hx'))⟩

/-! ## C8 -/

theorem sort_desc_length (stats : List (String × CurveStats)) (cs : List String) :
    (sort_desc_by_mean stats cs).length = cs.length :=
  List.length_insertionSort _ _

theorem ranked_of_ne_nil (stats : List (String × CurveStats)) (valid : List String)
    (h : valid ≠ []) : ranked_of stats valid ≠ [] := by
  unfold ranked_of
  intro e
  have hlen := congrArg List.length e
  rw [sort_desc_length, List.length_nil] at hlen
  have hv : valid.length ≠ 0 := fun e0 => h (List.eq_nil_of_length_eq_zero e0)
  by_cases hf : (valid.filter hydro_filter).isEmpty
  · rw [if_pos hf, List.length_take, sort_desc_length] at hlen
    omega
  · rw [if_neg hf] at hlen
    exact hf (by rw [List.eq_nil_of_length_eq_zero hlen]; rfl)

/-- C8 (confirmed): the deterministic interpreter never fails and never
returns an empty object, and on an all-missing-data window it returns the
fixed insufficient-data interpretation: High seal and saturation risk, empty
zones and gas shows, and exactly two generic recommendations. -/
theorem C8_fallback_interpretation :
    ∀ (well_name : String) (curves : List String) (depth_min depth_max : ℚ)
      (stats : List (String × CurveStats)) (sample_data : List Row),
    (fallback_interpretation well_name curves depth_min depth_max stats
        sample_data).isSome = true ∧
    (∀ interp, fallback_interpretation well_name curves depth_min depth_max stats
        sample_data = some interp → interp.recommendations ≠ []) ∧
    ((∀ c ∈ curves, stats_non_null stats c = 0) →
      fallback_interpretation well_name curves depth_min depth_max stats sample_data =
        some (insufficient_interpretation well_name depth_min depth_max)) ∧
    (insufficient_interpretation well_name depth_min depth_max).risk_profile.seal_risk =
      "High" ∧
    (insufficient_interpretation well_name depth_min depth_max).risk_profile.saturation_risk =
      "High" ∧
    (insufficient_interpretation well_name depth_min depth_max).zones = [] ∧
    (insufficient_interpretation well_name depth_min depth_max).gas_shows = [] ∧
    (insufficient_interpretation well_name depth_min depth_max).recommendations.length = 2 := by
  intro wn curves dmin dmax stats sdata
  refine ⟨?_, ?_, ?_, rfl, rfl, rfl, rfl, rfl⟩
  · unfold fallback_interpretation
    by_cases hv : (curves.filter fun c => decide (0 < stats_non_null stats c)).isEmpty
    · rw [if_pos hv]
      rfl
    · rw [if_neg hv]
      have hne : (curves.filter fun c => decide (0 < stats_non_null stats c)) ≠ [] :=
        fun e => hv (by rw [e]; rfl)
      have hr := ranked_of_ne_nil stats _ hne
      rcases hrk : ranked_of stats
          (curves.filter fun c => decide (0 < stats_non_null stats c)) with _ | ⟨p, rest⟩
      · exact absurd hrk hr
      · rfl
  · intro interp hinterp
    unfold fallback_interpretation at hinterp
    by_cases hv : (curves.filter fun c => decide (0 < stats_non_null stats c)).isEmpty
    · rw [if_pos hv] at hinterp
      injection hinterp with h
      subst h
      simp [insufficient_interpretation]
    · rw [if_neg hv] at hinterp
      rcases hrk : ranked_of stats
          (curves.filter fun c => decide (0 < stats_non_null stats c)) with _ | ⟨p, rest⟩
      · rw [hrk] at hinterp
        exact absurd hinterp (by simp)
      · rw [hrk] at hinterp
        injection hinterp with h
        subst h
        simp [main_interpretation]
  · intro hall
    have hv : (curves.filter fun c => decide (0 < stats_non_null stats c)) = [] := by
      rw [List.filter_eq_nil_iff]
      intro c hc
      simp [hall c hc]
    unfold fallback_interpretation
    rw [hv]
    rfl

/-- C8 witness. -/
theorem C8_witness :
    fallback_interpretation ("W") [("HC1")] 0 100
        [(("HC1"), ⟨none, none, none, 5, 0⟩)] [] =
      some (insufficient_interpretation ("W") 0 100) ∧
    (insufficient_interpretation ("W") 0 100).recommendations ≠ [] := by
  have h := C8_fallback_interpretation ("W") [("HC1")] 0 100
    [(("HC1"), ⟨none, none, none, 5, 0⟩)] []
  have h3 := h.2.2.1 (by decide)
  exact ⟨h3, h.2.1 _ h3⟩

/-! ## C1 -/

/-- C1 (refuted, code bug): on the message `what about ROP(ft/hr) trend` with
candidates `ROP(ft/hr)` and `ROP`, the extraction returns BOTH names — the
longest-first evaluation only fixes the output order and does not suppress the
shorter substring match, contrary to the claim (and to the source comment
saying the ordering avoids smaller substring collisions). -/
theorem C1_extract_returns_both :
    extract_mentioned_curves ("what about ROP(ft/hr) trend") ["ROP(ft/hr)", "ROP"] =
      ["ROP(ft/hr)", "ROP"] ∧
    extract_mentioned_curves ("what about ROP(ft/hr) trend") ["ROP(ft/hr)", "ROP"] ≠
      ["ROP(ft/hr)"] := by
  constructor
  · decide
  · decide

/-! ## C10 -/

/-- C10 (confirmed): chat-path depth normalization always lands inside the
well extent with `depth_min < depth_max`; omitted bounds default to the well
extent, and a degenerate clamped request silently yields the full extent. -/
theorem C10_normalize_depth_range :
    ∀ (request_min request_max : Option ℚ) (start_depth stop_depth : ℚ),
    start_depth < stop_depth →
    (start_depth ≤ (normalize_depth_range request_min request_max start_depth stop_depth).1 ∧
     (normalize_depth_range request_min request_max start_depth stop_depth).1 <
       (normalize_depth_range request_min request_max start_depth stop_depth).2 ∧
     (normalize_depth_range request_min request_max start_depth stop_depth).2 ≤ stop_depth) ∧
    (request_min = none →
      (normalize_depth_range request_min request_max start_depth stop_depth).1 = start_depth) ∧
    (request_max = none →
      (normalize_depth_range request_min request_max start_depth stop_depth).2 = stop_depth) ∧
    (∀ v, request_min = some v → v ≤ start_depth →
      (normalize_depth_range request_min request_max start_depth stop_depth).1 = start_depth) ∧
    (∀ v, request_max = some v → stop_depth ≤ v →
      (normalize_depth_range request_min request_max start_depth stop_depth).2 = stop_depth) ∧
    (clampd start_depth stop_depth (request_max.getD stop_depth) ≤
       clampd start_depth stop_depth (request_min.getD start_depth) →
      normalize_depth_range request_min request_max start_depth stop_depth =
        (start_depth, stop_depth)) := by
  intro rmin rmax a b hab
  have hx1 : a ≤ clampd a b (rmin.getD a) := le_max_left _ _
  have hy2 : clampd a b (rmax.getD b) ≤ b := max_le hab.le (min_le_right _ _)
  have hnr : normalize_depth_range rmin rmax a b =
      if clampd a b (rmax.getD b) ≤ clampd a b (rmin.getD a) then (a, b)
      else (clampd a b (rmin.getD a), clampd a b (rmax.getD b)) := rfl
  rw [hnr]
  by_cases hc : clampd a b (rmax.getD b) ≤ clampd a b (rmin.getD a)
  · rw [if_pos hc]
    exact ⟨⟨le_refl _, hab, le_refl _⟩, fun _ => rfl, fun _ => rfl,
      fun _ _ _ => rfl, fun _ _ _ => rfl, fun _ => rfl⟩
  · rw [if_neg hc]
    refine ⟨⟨hx1, not_le.mp hc, hy2⟩, ?_, ?_, ?_, ?_, fun h => absurd h hc⟩
    · rintro rfl
      simp [clampd, min_eq_left hab.le]
    · rintro rfl
      simp [clampd, max_eq_right hab.le]
    · rintro v rfl hv
      simp only [Option.getD_some, clampd]
      rw [min_eq_left (hv.trans hab.le), max_eq_left hv]
    · rintro v rfl hv
      simp only [Option.getD_some, clampd]
      rw [min_eq_right hv, max_eq_right hab.le]

/-- C10 witness. -/
theorem C10_witness :
    (3 : ℚ) ≤ (normalize_depth_range (some 2) (some 50) 3 10).1 ∧
    (normalize_depth_range (some 2) (some 50) 3 10).1 <
      (normalize_depth_range (some 2) (some 50) 3 10).2 ∧
    (normalize_depth_range (some 2) (some 50) 3 10).2 ≤ 10 :=
  (C10_normalize_depth_range (some 2) (some 50) 3 10 (by norm_num)).1

/-! ## C9 -/

/-- C9 (confirmed): on the interpretation route, a request with
`depth_min ≥ depth_max` (that passes well lookup and curve validation) is
rejected with the invalid-range outcome, before any statistics or
interpretation are computed. -/
theorem C9_invalid_range_rejected :
    ∀ (wn : String) (available curves : List String) (depth_min depth_max : ℚ)
      (dbRows : List (ℚ × Row)),
    (∀ c ∈ curves, available.contains c = true) → depth_max ≤ depth_min →
    interpret_route (some wn) available curves depth_min depth_max dbRows =
      InterpretOutcome.invalidRange := by
  intro wn av cs dmin dmax db hall hle
  have hsub : ∀ c ∈ cs, c ∈ av := fun c hc => by simpa using hall c hc
  have hfil : cs.filter (fun c => !(av.contains c)) = [] := by
    rw [List.filter_eq_nil_iff]
    intro c hc
    simp [hsub c hc]
  simp only [interpret_route, hfil]
  simp [hle]

/-- C9 witness. -/
theorem C9_witness :
    interpret_route (some ("WELL-A")) ["HC1", "HC2"] ["HC1"] 9000 8500 [] =
      InterpretOutcome.invalidRange :=
  C9_invalid_range_rejected ("WELL-A") ["HC1", "HC2"] ["HC1"] 9000 8500 []
    (by decide) (by norm_num)

/-! ## C5 -/

/-- C5 (confirmed): every produced per-curve statistics entry has
`count` equal to the number of rows in the queried window, a curve with
`non_null_count = 0` gets `none` for min, max and mean, and an empty curve
list yields an empty mapping. -/
theorem C5_statistics_shape :
    ∀ (dbRows : List (ℚ × Row)) (curves : List String) (depth_min depth_max : Option ℚ),
    (∀ c s, (c, s) ∈ get_well_statistics dbRows curves depth_min depth_max →
       s.count = (get_well_data dbRows curves depth_min depth_max).length ∧
       (s.non_null_count = 0 → s.min = none ∧ s.max = none ∧ s.mean = none)) ∧
    get_well_statistics dbRows [] depth_min depth_max = [] := by
  intro db cs dmin dmax
  constructor
  · intro c s hmem
    unfold get_well_statistics stats_of at hmem
    rcases List.mem_map.mp hmem with ⟨c', _, heq⟩
    split at heq
    · injection heq with h1 h2
      subst h1
      subst h2
      exact ⟨rfl, fun _ => ⟨rfl, rfl, rfl⟩⟩
    · injection heq with h1 h2
      subst h1
      subst h2
      exact ⟨rfl, fun h => absurd h (by simp)⟩
  · rfl

/-- C5 witness. -/
theorem C5_witness :
    (⟨none, none, none, 1, 0⟩ : CurveStats).count =
      (get_well_data [(100, [(("HC1"), none)])] ["HC1"] none none).length ∧
    ((⟨none, none, none, 1, 0⟩ : CurveStats).non_null_count = 0 →
      (⟨none, none, none, 1, 0⟩ : CurveStats).min = none ∧
      (⟨none, none, none, 1, 0⟩ : CurveStats).max = none ∧
      (⟨none, none, none, 1, 0⟩ : CurveStats).mean = none) :=
  (C5_statistics_shape [(100, [(("HC1"), none)])] ["HC1"] none none).1 ("HC1")
    ⟨none, none, none, 1, 0⟩ (by decide)

/-! ## C4 -/

/-- C4 (confirmed): in the parser data loop, a record whose depth cell is NaN
or the null sentinel is dropped; otherwise the emitted row's depth is the raw
depth rounded to 4 decimals, its key set is exactly the full mnemonic list,
a non-index cell that is NaN or exactly the null value is stored as the null
marker (never the sentinel), and every other cell is stored rounded to 4
decimals. -/
theorem C4_parse_rows :
    ∀ (null_val : ℚ) (mns : List String) (records : List RawRecord),
    (∀ row ∈ parse_data_rows null_val mns records, row.values.map Prod.fst = mns) ∧
    (∀ r : RawRecord, (r.depth = RawVal.nan ∨ r.depth = RawVal.num null_val) →
      process_record null_val mns r = none) ∧
    (∀ (r : RawRecord) (q : ℚ), r.depth = RawVal.num q → q ≠ null_val →
      process_record null_val mns r =
        some ⟨roundQ 4 q, mns.map fun mn => (mn, (cell_value null_val r.cells mn).map (roundQ 4))⟩) ∧
    (∀ (r : RawRecord) (mn : String) (row : DataRow), mn ∈ mns →
      process_record null_val mns r = some row →
      ((r.cells.lookup mn = some RawVal.nan ∨ r.cells.lookup mn = some (RawVal.num null_val)) →
        row.values.lookup mn = some none) ∧
      (∀ q, r.cells.lookup mn = some (RawVal.num q) → q ≠ null_val →
        row.values.lookup mn = some (some (roundQ 4 q)))) := by
  intro nv mns records
  refine ⟨?_, ?_, ?_, ?_⟩
  · intro row hrow
    rcases List.mem_filterMap.mp hrow with ⟨r, _, hr⟩
    unfold process_record at hr
    split at hr
    · exact absurd hr (by simp)
    · injection hr with h1
      subst h1
      simp [List.map_map, Function.comp_def]
  · intro r hd
    unfold process_record
    rcases hd with h | h <;> rw [h] <;> simp [replaceCell]
  · intro r q hd hq
    unfold process_record
    rw [hd]
    simp [replaceCell, hq]
  · intro r mn row hmn hr
    unfold process_record at hr
    split at hr
    · exact absurd hr (by simp)
    · injection hr with h1
      subst h1
      constructor
      · intro hcell
        have := lookup_map_pairs (fun mn => (cell_value nv r.cells mn).map (roundQ 4)) mns mn hmn
        rcases hcell with h | h <;>
          simpa [cell_value, h, replaceCell] using this
      · intro q hcell hq
        have := lookup_map_pairs (fun mn => (cell_value nv r.cells mn).map (roundQ 4)) mns mn hmn
        simpa [cell_value, hcell, replaceCell, hq] using this

/-! ## C2 -/

theorem everyNth_one : ∀ (l : List α), everyNth l 1 = l
  | [] => by simp [everyNth]
  | a :: rest => by
    rw [show everyNth (a :: rest) 1 = a :: everyNth (List.drop 0 rest) 1 from by
      rw [everyNth]]
    rw [List.drop_zero]
    rw [everyNth_one rest]

theorem everyNth_sublist (l : List α) (k : ℕ) : (everyNth l k).Sublist l := by
  induction l, k using everyNth.induct with
  | case1 k => simp [everyNth]
  | case2 a rest k ih =>
    rw [show everyNth (a :: rest) k = a :: everyNth (List.drop (k - 1) rest) k from by
      rw [everyNth]]
    exact List.Sublist.cons₂ a (ih.trans (List.drop_sublist _ _))

theorem everyNth_length (l : List α) (k : ℕ) (hk : 1 ≤ k) :
    (everyNth l k).length = (l.length + k - 1) / k := by
  revert hk
  induction l, k using everyNth.induct with
  | case1 k =>
    intro hk
    simp only [everyNth, List.length_nil, Nat.zero_add]
    exact (Nat.div_eq_of_lt (by omega)).symm
  | case2 a rest k ih =>
    intro hk
    rw [show everyNth (a :: rest) k = a :: everyNth (List.drop (k - 1) rest) k from by
      rw [everyNth]]
    rw [List.length_cons, ih hk, List.length_drop, List.length_cons]
    have hr : rest.length + 1 + k - 1 = rest.length + k := by omega
    rw [hr, Nat.add_div_right _ (by omega : 0 < k)]
    rcases le_or_lt (k - 1) rest.length with hcase | hcase
    · have hnum : rest.length - (k - 1) + k - 1 = rest.length := by omega
      rw [hnum]
    · have hnum : rest.length - (k - 1) + k - 1 = k - 1 := by omega
      rw [hnum, Nat.div_eq_of_lt (by omega), Nat.div_eq_of_lt (by omega)]

/-- C2 counterexample: on the chat path (cap 3500) a 3501-row window gets
stride `max(1, 3501 // 3500) = 1`, not the claimed `⌈3501/3500⌉ = 2`, so all
3501 rows are processed — more than the cap. -/
theorem C2_counterexample :
    stride_for 3501 3500 = 1 ∧
    (3501 + 3500 - 1) / 3500 = 2 ∧
    (subsample (List.replicate 3501 ((0 : ℚ))) 3500).length = 3501 ∧
    3500 < 3501 := by
  refine ⟨by decide, by decide, ?_, by decide⟩
  have h : stride_for (List.replicate 3501 ((0 : ℚ))).length 3500 = 1 := by
    rw [List.length_replicate]
    decide
  rw [subsample, h, everyNth_one, List.length_replicate]

/-- C2 (amended): the subsampling used by `_format_query_analytics` (cap 3500)
and `_curve_pairs` (cap 4000) uses the floor stride `max(1, n // cap)`, keeps
every stride-th row in order (a sublist), and processes `⌈n / stride⌉` rows —
which can exceed the cap but is always below twice the cap. -/
theorem C2_subsample_stride :
    ∀ (rows : List Row) (cap : ℕ), 1 ≤ cap →
    subsample rows cap = everyNth rows (max 1 (rows.length / cap)) ∧
    (subsample rows cap).Sublist rows ∧
    (subsample rows cap).length =
      (rows.length + stride_for rows.length cap - 1) / stride_for rows.length cap ∧
    (subsample rows cap).length < 2 * cap := by
  intro rows cap hcap
  have hk : 1 ≤ stride_for rows.length cap := le_max_left _ _
  refine ⟨rfl, everyNth_sublist _ _, everyNth_length _ _ hk, ?_⟩
  show (everyNth rows (stride_for rows.length cap)).length < 2 * cap
  rw [everyNth_length _ _ hk]
  set n := rows.length with hn
  set k := stride_for n cap with hkdef
  have hdiv : n / cap ≤ k := by
    rw [hkdef, stride_for]
    exact le_max_right _ _
  have hlt : n < (k + 1) * cap :=
    (Nat.div_lt_iff_lt_mul hcap).mp (Nat.lt_succ_of_le hdiv)
  have hprod : k + cap ≤ k * cap + 1 := by
    rcases Nat.exists_eq_add_of_le hk with ⟨j, hj⟩
    rcases Nat.exists_eq_add_of_le hcap with ⟨c, hc⟩
    rw [hj, hc]
    have e : (1 + j) * (1 + c) = 1 + j + c + j * c := by ring
    omega
  rw [Nat.div_lt_iff_lt_mul (by omega : 0 < k)]
  have e2 : (k + 1) * cap = k * cap + cap := by ring
  have e3 : 2 * cap * k = 2 * (k * cap) := by ring
  omega

/-- C2 witness. -/
theorem C2_witness :
    (subsample ([[(("depth"), some 1)]] : List Row) 3500).Sublist
      [[(("depth"), some 1)]] :=
  (C2_subsample_stride [[(("depth"), some 1)]] 3500 (by norm_num)).2.1

/-- C4 witness. -/
theorem C4_witness :
    process_record (-9999) ["HC1"] ⟨RawVal.num (-9999), [(("HC1"), RawVal.num 2)]⟩ = none ∧
    process_record (-9999) ["HC1"] ⟨RawVal.num 100, [(("HC1"), RawVal.nan)]⟩ =
      some ⟨roundQ 4 100, [(("HC1"), none)]⟩ := by
  have h := C4_parse_rows (-9999) ["HC1"]
    [⟨RawVal.num 100, [(("HC1"), RawVal.nan)]⟩]
  refine ⟨(h.2.1) ⟨RawVal.num (-9999), [(("HC1"), RawVal.num 2)]⟩ (Or.inr rfl), ?_⟩
  have h3 := (h.2.2.1) ⟨RawVal.num 100, [(("HC1"), RawVal.nan)]⟩ 100 rfl (by norm_num)
  simpa [cell_value, replaceCell] using h3

end WellLogApp
